import Mathlib

/-!
Verification development for the BHT module-handbook extractor.

The repository has two revisions of the same extractor:
`src/extract.py` (the older revision, embedded in namespace `Extract`) and
`src/pdfextract/extract.py` (the newer revision, embedded in namespace
`PdfExtract`).  Strings are modelled as Lean `String` / `List Char`;
coordinates as `ℤ` (every coordinate and deviation appearing in the
source's call sites and in the claims is a small integer, on which the
source's floating-point arithmetic is exact).  Character classes of Python's `re` module (`\w`, `\s`,
`[A-Z]`, `[a-z]`, `[0-9]`) are modelled over the ASCII range, which is
faithful for all inputs considered here.
-/

deriving instance DecidableEq for Except

/-- Python `\s` (ASCII range): space, tab, newline, carriage return,
vertical tab, form feed. -/
def isSpaceChar (c : Char) : Bool :=
  c = ' ' || c = '\t' || c = '\n' || c = '\r' || c = '\x0b' || c = '\x0c'

/-- Python `\w` (ASCII range): letters, digits, underscore. -/
def isWordChar (c : Char) : Bool :=
  c.isAlphanum || c = '_'

/-- Python `[A-Z]`. -/
def isAsciiUpper (c : Char) : Bool := 'A' ≤ c && c ≤ 'Z'

/-- Python `[a-z]`. -/
def isAsciiLower (c : Char) : Bool := 'a' ≤ c && c ≤ 'z'

/-- Python `[0-9]`. -/
def isAsciiDigit (c : Char) : Bool := '0' ≤ c && c ≤ '9'

/-- Python `str.strip()` on a character list: drop leading and trailing
whitespace. -/
def pyStrip (s : List Char) : List Char :=
  ((s.dropWhile isSpaceChar).reverse.dropWhile isSpaceChar).reverse

/-- Python `str.strip()` on a `String`. -/
def pyStripStr (s : String) : String :=
  String.mk (pyStrip s.data)

/-!
The `re.split` scan with the sentence-boundary patterns.  Both patterns match a
single whitespace character and constrain the (up to four) characters
before it with lookbehinds.  `splitAux` scans the text left to right;
`pr` is the reversed list of already-consumed characters (the lookbehind
context: `pr.get? k` is the character `k+1` positions before the match
candidate), and `acc` is the reversed current chunk.  When the predicate
holds the matched whitespace character is consumed and a chunk boundary
is emitted, exactly as `re.split` does for a pattern without capturing
groups.
-/

def splitAux (p : List Char → Char → Bool) :
    List Char → List Char → List Char → List (List Char)
  | _, acc, [] => [acc.reverse]
  | pr, acc, c :: rest =>
    if p pr c then acc.reverse :: splitAux p (c :: pr) [] rest
    else splitAux p (c :: pr) (c :: acc) rest

/-- Python `re.split(pattern, s)` for a pattern matching one character subject to
lookbehinds expressed by `p` on the reversed prefix. -/
def pySplit (p : List Char → Char → Bool) (s : List Char) : List (List Char) :=
  splitAux p [] [] s

/-- Lookbehind `(?<=\.|\?|\!)`: the previous character is a sentence
terminator. -/
def terminatorBehind (pr : List Char) : Bool :=
  match pr.get? 0 with
  | some t => t = '.' || t = '?' || t = '!'
  | none => false

/-- Lookbehind `(?<!\w\.\w.)`: the four characters before the match
candidate are word-character, literal dot, word-character, and any
character other than a newline (the regex `.`). -/
def wordDotWordBehind (pr : List Char) : Bool :=
  match pr.get? 3, pr.get? 2, pr.get? 1, pr.get? 0 with
  | some a, some b, some d, some e =>
    isWordChar a && b = '.' && isWordChar d && !(e = '\n')
  | _, _, _, _ => false

/-- Lookbehind `(?<!etc\.|bzw\.|usw\.|uvm\.)`: the four characters before
the match candidate spell one of the fixed abbreviations. -/
def abbrevBehind (pr : List Char) : Bool :=
  pr.take 4 = ['.', 'c', 't', 'e'] || pr.take 4 = ['.', 'w', 'z', 'b'] ||
  pr.take 4 = ['.', 'w', 's', 'u'] || pr.take 4 = ['.', 'm', 'v', 'u']

/-- Lookbehind `(?<![A-Z][a-z]\.)`. -/
def titleAbbrevBehind (pr : List Char) : Bool :=
  match pr.get? 2, pr.get? 1, pr.get? 0 with
  | some a, some b, some d => isAsciiUpper a && isAsciiLower b && d = '.'
  | _, _, _ => false

/-- Lookbehind `(?<![0-9]\.)`. -/
def digitDotBehind (pr : List Char) : Bool :=
  match pr.get? 1, pr.get? 0 with
  | some a, some b => isAsciiDigit a && b = '.'
  | _, _ => false

namespace Extract

/-- Split predicate of `src/extract.py::split_sentences`:
`r"(?<!\w\.\w.)(?<![A-Z][a-z]\.)(?<![0-9]\.)(?<=\.|\?|\!)\s"`. -/
def splitPred (pr : List Char) (c : Char) : Bool :=
  isSpaceChar c && terminatorBehind pr &&
  !wordDotWordBehind pr && !titleAbbrevBehind pr && !digitDotBehind pr

end Extract

namespace PdfExtract

/-- Split predicate of `src/pdfextract/extract.py::split_sentences`:
`r"(?<!\w\.\w.)(?<!etc\.|bzw\.|usw\.|uvm\.)(?<![A-Z][a-z]\.)(?<![0-9]\.)(?<=\.|\?|\!)\s"`. -/
def splitPred (pr : List Char) (c : Char) : Bool :=
  isSpaceChar c && terminatorBehind pr && !wordDotWordBehind pr &&
  !abbrevBehind pr && !titleAbbrevBehind pr && !digitDotBehind pr

end PdfExtract

/-- Python `re.sub(r"(?<!\s)(- )", "", s)`: scan left to right over the original
string; a hyphen immediately followed by a space, with the preceding
original character not whitespace (a position at the start of the string
also satisfies the lookbehind), is removed together with that space, and
scanning resumes after the removed pair (whose last character, the space,
becomes the lookbehind context). -/
def dehyph : Bool → List Char → List Char
  | _, [] => []
  | p, '-' :: ' ' :: rest =>
    if p then '-' :: dehyph false (' ' :: rest)
    else dehyph true rest
  | _, c :: rest => c :: dehyph (isSpaceChar c) rest

namespace Extract

/-- The function `split_sentences` of `src/extract.py`: split at the pattern, strip each
sentence, then remove hyphenation artifacts (no final strip). -/
def split_sentences (text : String) : List String :=
  let sentences := (pySplit splitPred text.data).map pyStrip
  let sentences := sentences.map (dehyph false)
  sentences.map String.mk

end Extract

namespace PdfExtract

/-- The function `split_sentences` of `src/pdfextract/extract.py`: split at the pattern,
strip each sentence, remove hyphenation artifacts, and strip again. -/
def split_sentences (text : String) : List String :=
  let sentences := (pySplit splitPred text.data).map pyStrip
  let sentences := sentences.map (dehyph false)
  (sentences.map pyStrip).map String.mk

end PdfExtract

/-!
The positioned-text model.  A `Frag` is one `LTTextLineHorizontal` element
as reported by the external parser: a bounding box `(x0, y0, x1, y1)` with
`y` increasing upward, and its text content.  A page is the parser's
ordered list of fragments; a `Pdf` is the list of pages (the page count of
the document metadata equals the number of pages).
-/

/-- A positioned text fragment (an `LTTextLineHorizontal` element). -/
structure Frag where
  text : String
  x0 : ℤ
  y0 : ℤ
  x1 : ℤ
  y1 : ℤ
deriving DecidableEq, Repr

/-- A parsed document: its pages, each an ordered list of fragments. -/
structure Pdf where
  pages : List (List Frag)
deriving DecidableEq, Repr

/-- A bounding box as passed to `in_bbox("x0, y0, x1, y1")`. -/
structure Box where
  x0 : ℤ
  y0 : ℤ
  x1 : ℤ
  y1 : ℤ
deriving DecidableEq, Repr

/-- The `Point` class of both revisions: a 2D coordinate used as a
deviation offset. -/
structure Point where
  x : ℤ
  y : ℤ
deriving DecidableEq, Repr

/-- The `ValueError` raised by `get_selector_for_element_text`: carries the
last tried descriptor and the 1-based page number interpolated into the
message (`page + 1`). -/
structure AnchorNotFound where
  descriptor : String
  page : Nat
deriving DecidableEq, Repr

/-- The uncaught Python exception that can escape `extract_competencies`:
a `KeyError` on the results dictionary, carrying the missing key. -/
inductive ExtractErr where
  | keyError (key : String)
deriving DecidableEq, Repr

/-- An extracted module record (one element of the result list of
`extract_competencies` in `src/pdfextract/extract.py`; in that revision
every key is present whenever the record is built at all). -/
structure Rec where
  id : String
  name : String
  competencies : List String
  requirements : List String
  page : Nat
deriving DecidableEq, Repr

/-- CSS `:contains("needle")`: substring containment of the needle in the
fragment's text. -/
def containsSub (hay needle : List Char) : Bool :=
  (List.range (hay.length + 1)).any fun i => needle.isPrefixOf (hay.drop i)

/-- Substring containment on `String`s. -/
def containsS (hay needle : String) : Bool :=
  containsSub hay.data needle.data

namespace PdfExtract

/-- First fragment of the page whose text contains the candidate, in the
parser's document order. -/
def firstMatch (page : List Frag) (cand : String) : Option Frag :=
  page.find? fun fr => containsS fr.text cand

/-- The candidate loop of `get_selector_for_element_text`: try each
descriptor in order; the first one with at least one matching fragment
wins, and the first matching fragment (document order, the element whose
`attr` is read) is returned. -/
def resolveAnchor (page : List Frag) : List String → Option Frag
  | [] => none
  | c :: cs =>
    match firstMatch page c with
    | some f => some f
    | none => resolveAnchor page cs

/-- Anchor resolution with the `ValueError` of the source: if no candidate
matches, the error names the last tried descriptor and the page as
`page + 1` (the loop variable holds the last candidate after a loop that
never broke). -/
def resolveAnchorE (page : List Frag) (cands : List String) (pidx : Nat) :
    Except AnchorNotFound Frag :=
  match resolveAnchor page cands with
  | some f => Except.ok f
  | none => Except.error ⟨cands.getLastD "", pidx + 1⟩

/-- The value bounding box computed by `get_selector_for_element_text`
from the descriptor element, the underlying descriptor element and the
deviation pair:
lower-left `(label.x0 + dev.1.x, terminator.y1 + dev.1.y)`,
upper-right `(label.x0 + dev.2.x, label.y1 + dev.2.y)`. -/
def regionBox (label term : Frag) (dev : Point × Point) : Box :=
  { x0 := label.x0 + dev.1.x
    y0 := term.y1 + dev.1.y
    x1 := label.x0 + dev.2.x
    y1 := label.y1 + dev.2.y }

/-- The function `get_selector_for_element_text` reduced to its observable content: the
bounding box of the generated `in_bbox` selector, or the `ValueError` of
the failed resolution. -/
def getSelectorBox (page : List Frag) (pidx : Nat)
    (descriptors underlying : List String) (dev : Point × Point) :
    Except AnchorNotFound Box := do
  let d ← resolveAnchorE page descriptors pidx
  let u ← resolveAnchorE page underlying pidx
  pure (regionBox d u dev)

/-- Containment semantics of `in_bbox`: the fragment's box lies entirely within the
query box. -/
def fragInBox (f : Frag) (b : Box) : Bool :=
  b.x0 ≤ f.x0 && b.y0 ≤ f.y0 && f.x1 ≤ b.x1 && f.y1 ≤ b.y1

/-- The extraction of one selector: texts of the fragments inside the box,
in document order, joined by single spaces (pyquery `.text()`), then
stripped by the selector's formatter `lambda match: match.text().strip()`. -/
def extractBox (page : List Frag) (b : Box) : String :=
  pyStripStr (String.intercalate " " (((page.filter (fragInBox · b)).map Frag.text)))

/-- The per-field deviation pair used by every call site:
`(Point(120, 0), Point(490, 1))`. -/
def devStd : Point × Point := (⟨120, 0⟩, ⟨490, 1⟩)

/-- One iteration of the page loop of
`src/pdfextract/extract.py::extract_competencies`.

`Except.ok none` is the `continue` taken when the `"Modulnummer"` selector
raises (either the descriptor or its underlying `"Titel"` missing).  When
the primary selector succeeds the three secondary selectors are attempted,
each in its own `try`, so a failure merely leaves the key out of the
results dictionary.  The subsequent unconditional accesses
`page_results['name']`, `page_results['competencies']`,
`page_results['requirements']` (lines 230, 233, 234) then raise an
uncaught `KeyError` for the first missing key, in that order. -/
def extractPage (page : List Frag) (i : Nat) : Except ExtractErr (Option Rec) :=
  match getSelectorBox page i ["Modulnummer"] ["Titel"] devStd with
  | Except.error _ => Except.ok none
  | Except.ok idBox =>
    match (getSelectorBox page i ["Titel"] ["Leistungspunkte", "Credits"] devStd).toOption with
    | none => Except.error (ExtractErr.keyError "name")
    | some nb =>
      match (getSelectorBox page i ["Lernziele / Kompetenzen", "Lernziele/Kompetenzen"]
              ["Voraussetzungen"] devStd).toOption,
            (getSelectorBox page i ["Voraussetzungen"] ["Niveaustufe"] devStd).toOption with
      | none, _ => Except.error (ExtractErr.keyError "competencies")
      | some _, none => Except.error (ExtractErr.keyError "requirements")
      | some cb, some rb =>
        Except.ok (some
          { id := pyStripStr (extractBox page idBox)
            name := pyStripStr (extractBox page nb)
            competencies := split_sentences (extractBox page cb)
            requirements := split_sentences (extractBox page rb)
            page := i + 1 })

/-- The page loop, sequential over the given page indices; the first
uncaught exception aborts the whole extraction. -/
def extractLoop (pdf : Pdf) : List Nat → Except ExtractErr (List Rec)
  | [] => Except.ok []
  | i :: is =>
    match extractPage (pdf.pages.getD i []) i with
    | Except.error e => Except.error e
    | Except.ok none => extractLoop pdf is
    | Except.ok (some r) =>
      match extractLoop pdf is with
      | Except.error e => Except.error e
      | Except.ok rs => Except.ok (r :: rs)

/-- The function `extract_competencies` of `src/pdfextract/extract.py`: the loop runs over
`range(page_count - 1)`, i.e. page indices `0 .. page_count - 2`. -/
def extract_competencies (pdf : Pdf) : Except ExtractErr (List Rec) :=
  extractLoop pdf (List.range (pdf.pages.length - 1))

/-- The function `escape_filename`: `re.sub(r"[^\w\-_\.]", "_", input)` replaces every
character that is not a word character, hyphen, underscore or dot by an
underscore. -/
def escape_filename (input : String) : String :=
  String.mk (input.data.map fun c =>
    if isWordChar c || c = '-' || c = '_' || c = '.' then c else '_')

/-- The directory name built by `write_to_conll_directory_structure` for
one record: `escape_filename` of the id, a hyphen, and `escape_filename`
of the name — where a record without a readable name (the broad
`except` around `escape_filename(result["name"])`) gets the literal
`"unknown"` instead. -/
def moduleFolderName (id : String) (name : Option String) : String :=
  escape_filename id ++ "-" ++
    (match name with
     | some n => escape_filename n
     | none => "unknown")

end PdfExtract

/-- Characters allowed to remain by `escape_filename`: word characters,
hyphen, underscore, dot. -/
def allowedFilenameChar (c : Char) : Bool :=
  isWordChar c || c = '-' || c = '_' || c = '.'

/-!
Specification-side description of the dehyphenation pass (claim C5): an
index-based removal of every qualifying hyphen-space occurrence.
-/

/-- Position `i` of `s` starts a hyphenation artifact: `s` holds `'-'` at
`i` immediately followed by `' '`, and the character before the hyphen is
not whitespace.  The flag `p` tells whether the character just before `s`
(outside of it) is whitespace; it governs a hyphen at position `0`. -/
def hyphenPairAt (p : Bool) (s : List Char) : Nat → Bool
  | 0 => s[0]? == some '-' && s[1]? == some ' ' && !p
  | i + 1 =>
    s[i + 1]? == some '-' && s[i + 2]? == some ' ' &&
      (s[i]?).elim true fun pc => !isSpaceChar pc

/-- Index `i` of `s` is removed: it is the hyphen or the space of a
hyphenation artifact. -/
def removedIdx (p : Bool) (s : List Char) : Nat → Bool
  | 0 => hyphenPairAt p s 0
  | i + 1 => hyphenPairAt p s (i + 1) || hyphenPairAt p s i

/-- The characters of `s` that survive after removing, for every
hyphenation artifact, the hyphen-space pair. -/
def removeHyphenPairsC (p : Bool) (s : List Char) : List Char :=
  ((List.range s.length).filter fun i => !removedIdx p s i).filterMap fun i => s[i]?

/-- Removal of all hyphenation artifacts of a string (no character
precedes the start of the string, so a leading hyphen qualifies). -/
def removeHyphenPairs (s : List Char) : List Char :=
  removeHyphenPairsC false s

/-!
Specification-side description of the split conditions (claim C4).  The
position considered is a whitespace character; `pr` lists the characters
before it, nearest first.
-/

/-- The character before the whitespace is a sentence terminator. -/
def TerminatorBefore (pr : List Char) : Prop :=
  pr.get? 0 = some '.' ∨ pr.get? 0 = some '?' ∨ pr.get? 0 = some '!'

/-- The four characters before the whitespace are a word character, a
period, a word character, and any character other than a newline (this
fourth character is the sentence terminator itself). -/
def WordDotWordCtx (pr : List Char) : Prop :=
  ∃ a b d e, pr.get? 3 = some a ∧ pr.get? 2 = some b ∧ pr.get? 1 = some d ∧
    pr.get? 0 = some e ∧ isWordChar a = true ∧ b = '.' ∧ isWordChar d = true ∧ e ≠ '\n'

/-- The four characters before the whitespace spell one of the fixed
abbreviations `etc.`, `bzw.`, `usw.`, `uvm.`. -/
def AbbrevCtx (pr : List Char) : Prop :=
  (pr.take 4).reverse = ['e', 't', 'c', '.'] ∨ (pr.take 4).reverse = ['b', 'z', 'w', '.'] ∨
    (pr.take 4).reverse = ['u', 's', 'w', '.'] ∨ (pr.take 4).reverse = ['u', 'v', 'm', '.']

/-- The three characters before the whitespace are an uppercase letter, a
lowercase letter and a period. -/
def TitleAbbrevCtx (pr : List Char) : Prop :=
  ∃ a b d, pr.get? 2 = some a ∧ pr.get? 1 = some b ∧ pr.get? 0 = some d ∧
    isAsciiUpper a = true ∧ isAsciiLower b = true ∧ d = '.'

/-- The two characters before the whitespace are a digit and a period. -/
def DigitDotCtx (pr : List Char) : Prop :=
  ∃ a b, pr.get? 1 = some a ∧ pr.get? 0 = some b ∧ isAsciiDigit a = true ∧ b = '.'

/-- The primary selector of a page resolves: both the `"Modulnummer"`
descriptor and its underlying `"Titel"` descriptor match some fragment. -/
def primaryResolves (page : List Frag) : Bool :=
  (PdfExtract.resolveAnchor page ["Modulnummer"]).isSome &&
    (PdfExtract.resolveAnchor page ["Titel"]).isSome

/-- A two-page demonstration document: the first page carries all six
anchors, the second page is empty filler so the first page is inside
`range(page_count - 1)`. -/
def demoPdf : Pdf :=
  ⟨[[⟨"Modulnummer", 0, 700, 100, 710⟩, ⟨"B01 Software", 120, 700, 300, 710⟩,
      ⟨"Titel", 0, 680, 100, 690⟩, ⟨"Grundlagen", 120, 680, 300, 690⟩,
      ⟨"Leistungspunkte", 0, 660, 100, 670⟩,
      ⟨"Lernziele / Kompetenzen", 0, 640, 100, 650⟩,
      ⟨"Voraussetzungen", 0, 620, 100, 630⟩,
      ⟨"Niveaustufe", 0, 600, 100, 610⟩], []]⟩

/-- The records of the demonstration document. -/
def demoRecs : List Rec :=
  (PdfExtract.extract_competencies demoPdf).toOption.getD []

example : PdfExtract.split_sentences "Das ist z.B. gut. Und das auch." =
    ["Das ist z.B. gut.", "Und das auch."] := by decide

example : PdfExtract.split_sentences "Siehe Kapitel 3. Das ist wichtig." =
    ["Siehe Kapitel 3. Das ist wichtig."] := by decide

example : PdfExtract.split_sentences "Diese Fer- tigkeit ist wichtig." =
    ["Diese Fertigkeit ist wichtig."] := by decide

example : PdfExtract.split_sentences "a.b? C" = ["a.b? C"] := by decide

example : PdfExtract.split_sentences "" = [""] := by decide

example : Extract.split_sentences "Siehe etc. Und mehr." =
    ["Siehe etc.", "Und mehr."] := by decide

example : PdfExtract.split_sentences "Siehe etc. Und mehr." =
    ["Siehe etc. Und mehr."] := by decide

example : Extract.split_sentences "-  y" = [" y"] := by decide

example : PdfExtract.split_sentences "-  y" = ["y"] := by decide

example : PdfExtract.split_sentences "z.- B. C" = ["z.B.", "C"] := by decide

example : PdfExtract.split_sentences "z.B. C" = ["z.B. C"] := by decide

example : PdfExtract.escape_filename "Intro / Basics?!" = "Intro___Basics__" := by decide

example :
    PdfExtract.resolveAnchorE [⟨"Ein Titel hier", 0, 0, 10, 10⟩] ["Modulnummer", "Titel"] 0 =
      Except.ok ⟨"Ein Titel hier", 0, 0, 10, 10⟩ := by decide

example :
    PdfExtract.getSelectorBox [⟨"L1", 10, 100, 40, 110⟩, ⟨"T1", 10, 90, 40, 95⟩] 0
      ["L1"] ["T1"] (⟨120, 0⟩, ⟨490, 1⟩) = Except.ok ⟨130, 95, 500, 111⟩ := by decide

/-- If every candidate fails to match every fragment, the candidate loop
comes up empty. -/
theorem resolveAnchor_eq_none (page : List Frag) (cands : List String)
    (h : (cands.all fun c => page.all fun fr => !containsS fr.text c) = true) :
    PdfExtract.resolveAnchor page cands = none := by
  induction cands with
  | nil => rfl
  | cons c cs ih =>
    rw [List.all_cons, Bool.and_eq_true] at h
    have hnone : PdfExtract.firstMatch page c = none := by
      apply List.find?_eq_none.mpr
      intro fr hfr
      have := (List.all_eq_true.mp h.1) fr hfr
      simp only [Bool.not_eq_true'] at this
      simp [this]
    simp [PdfExtract.resolveAnchor, hnone, ih h.2]

/-- Success shape of anchor resolution: a first-candidate match is
returned as is. -/
theorem resolveAnchorE_head (page : List Frag) (pidx : Nat) (c : String)
    (cs : List String) (f : Frag) (h : PdfExtract.firstMatch page c = some f) :
    PdfExtract.resolveAnchorE page (c :: cs) pidx = Except.ok f := by
  simp [PdfExtract.resolveAnchorE, PdfExtract.resolveAnchor, h]

/-- Claim C6: anchor resolution tries candidates in order as substring
matches against the page's fragments and returns the first fragment of the
first candidate with at least one match; on a page whose fragments match
only the second candidate of a multi-candidate list it returns that
fragment rather than failing; if no candidate matches any fragment, it
fails with an anchor-not-found error (naming the last tried descriptor and
the page) for that page. -/
theorem anchor_resolution_order (page : List Frag) (pidx : Nat) :
    (∀ (c1 c2 : String) (cs : List String) (f : Frag),
        (page.all fun fr => !containsS fr.text c1) = true →
        PdfExtract.firstMatch page c2 = some f →
        PdfExtract.resolveAnchorE page (c1 :: c2 :: cs) pidx = Except.ok f)
    ∧ (∀ (c : String) (cs : List String) (f : Frag),
        PdfExtract.firstMatch page c = some f →
        PdfExtract.resolveAnchorE page (c :: cs) pidx = Except.ok f)
    ∧ (∀ cands : List String,
        (cands.all fun c => page.all fun fr => !containsS fr.text c) = true →
        PdfExtract.resolveAnchorE page cands pidx =
          Except.error ⟨cands.getLastD "", pidx + 1⟩) := by
  refine ⟨?_, ?_, ?_⟩
  · intro c1 c2 cs f h1 h2
    have hnone : PdfExtract.firstMatch page c1 = none := by
      apply List.find?_eq_none.mpr
      intro fr hfr
      have := (List.all_eq_true.mp h1) fr hfr
      simp only [Bool.not_eq_true'] at this
      simp [this]
    simp [PdfExtract.resolveAnchorE, PdfExtract.resolveAnchor, hnone, h2]
  · intro c cs f h
    exact resolveAnchorE_head page pidx c cs f h
  · intro cands h
    simp [PdfExtract.resolveAnchorE, resolveAnchor_eq_none page cands h]

/-- Witness for claim C6 at a concrete page: the page matches only the
second candidate `"Titel"` of the list and resolution returns that
fragment; a candidate list with no match yields the anchor-not-found
error naming the candidate and the page. -/
theorem anchor_resolution_order_witness :
    PdfExtract.resolveAnchorE [⟨"Ein Titel hier", 0, 0, 10, 10⟩]
        ["Modulnummer", "Titel"] 0 = Except.ok ⟨"Ein Titel hier", 0, 0, 10, 10⟩
    ∧ PdfExtract.resolveAnchorE [⟨"Ein Titel hier", 0, 0, 10, 10⟩]
        ["Niveaustufe"] 0 = Except.error ⟨"Niveaustufe", 1⟩ :=
  ⟨(anchor_resolution_order [⟨"Ein Titel hier", 0, 0, 10, 10⟩] 0).1
      "Modulnummer" "Titel" [] ⟨"Ein Titel hier", 0, 0, 10, 10⟩
      (by decide) (by decide),
   (anchor_resolution_order [⟨"Ein Titel hier", 0, 0, 10, 10⟩] 0).2.2
      ["Niveaustufe"] (by decide)⟩

/-- Claim C3: the value bounding box has lower-left corner
`(label.x0 + deviation.start.x, terminator.y1 + deviation.start.y)` and
upper-right corner `(label.x0 + deviation.end.x, label.y1 + deviation.end.y)`;
for label box `(10,100,40,110)`, terminator box `(10,90,40,95)` and
deviation `((120,0),(490,1))` the box is exactly lower-left `(130, 95)`,
upper-right `(500, 111)`. -/
theorem region_box_formula :
    (PdfExtract.getSelectorBox [⟨"L1", 10, 100, 40, 110⟩, ⟨"T1", 10, 90, 40, 95⟩] 0
        ["L1"] ["T1"] (⟨120, 0⟩, ⟨490, 1⟩) = Except.ok ⟨130, 95, 500, 111⟩)
    ∧ ∀ (page : List Frag) (pidx : Nat) (ds us : List String)
        (dev : Point × Point) (L T : Frag),
        PdfExtract.resolveAnchorE page ds pidx = Except.ok L →
        PdfExtract.resolveAnchorE page us pidx = Except.ok T →
        PdfExtract.getSelectorBox page pidx ds us dev =
          Except.ok ⟨L.x0 + dev.1.x, T.y1 + dev.1.y, L.x0 + dev.2.x, L.y1 + dev.2.y⟩ := by
  constructor
  · decide
  · intro page pidx ds us dev L T hL hT
    simp only [PdfExtract.getSelectorBox, hL, hT]
    rfl

/-- Witness for claim C3: the general formula applied at the concrete
label and terminator of the claim. -/
theorem region_box_formula_witness :
    PdfExtract.getSelectorBox [⟨"L1", 10, 100, 40, 110⟩, ⟨"T1", 10, 90, 40, 95⟩] 0
        ["L1"] ["T1"] (⟨120, 0⟩, ⟨490, 1⟩) =
      Except.ok ⟨(10 : ℤ) + 120, (95 : ℤ) + 0, (10 : ℤ) + 490, (110 : ℤ) + 1⟩ :=
  region_box_formula.2 [⟨"L1", 10, 100, 40, 110⟩, ⟨"T1", 10, 90, 40, 95⟩] 0
    ["L1"] ["T1"] (⟨120, 0⟩, ⟨490, 1⟩) ⟨"L1", 10, 100, 40, 110⟩ ⟨"T1", 10, 90, 40, 95⟩
    (by decide) (by decide)

/-- Claim C7: the output directory name is built from the escaped id and
escaped name; escaping replaces every character that is not a word
character, hyphen, underscore or dot with an underscore, so
`"Intro / Basics?!"` escapes to `"Intro___Basics__"` and every escaped
string consists only of allowed characters; a record whose name is
unavailable gets the literal `"unknown"` in place of the escaped name. -/
theorem escape_filename_spec :
    (PdfExtract.escape_filename "Intro / Basics?!" = "Intro___Basics__")
    ∧ (∀ s : String, (PdfExtract.escape_filename s).data.all allowedFilenameChar = true)
    ∧ (∀ id name : String,
        PdfExtract.moduleFolderName id (some name) =
          PdfExtract.escape_filename id ++ "-" ++ PdfExtract.escape_filename name)
    ∧ (∀ id : String,
        PdfExtract.moduleFolderName id none =
          PdfExtract.escape_filename id ++ "-" ++ "unknown") := by
  refine ⟨by decide, ?_, fun id name => rfl, fun id => rfl⟩
  intro s
  rw [List.all_eq_true]
  intro c hc
  have hc' : c ∈ s.data.map (fun c =>
      if isWordChar c || c = '-' || c = '_' || c = '.' then c else '_') := hc
  obtain ⟨a, _, rfl⟩ := List.mem_map.mp hc'
  by_cases h : (isWordChar a || a = '-' || a = '_' || a = '.') = true
  · simp [allowedFilenameChar, h]
  · simp only [h]
    simp [allowedFilenameChar]

/-- Claim C9: segmenting the empty string is not an error (the function is
total) and returns exactly one element, the empty string. -/
theorem split_sentences_empty : PdfExtract.split_sentences "" = [""] := by decide

theorem dehyph_other (p : Bool) (c : Char) (rest : List Char)
    (h : ¬(c = '-' ∧ rest.head? = some ' ')) :
    dehyph p (c :: rest) = c :: dehyph (isSpaceChar c) rest := by
  rw [dehyph.eq_def]
  split
  · rename_i heq
    exact List.noConfusion heq
  · rename_i heq
    injection heq with h1 h2
    exact absurd ⟨h1, by rw [h2]; rfl⟩ h
  · rename_i hno heq
    injection heq with h1 h2
    subst h1
    subst h2
    rfl

theorem dehyph_pair_false (t : List Char) :
    dehyph false ('-' :: ' ' :: t) = dehyph true t := rfl

theorem dehyph_pair_true (t : List Char) :
    dehyph true ('-' :: ' ' :: t) = '-' :: dehyph false (' ' :: t) := rfl

theorem hyphenPairAt_shift (p : Bool) (c : Char) (t : List Char) (i : Nat) :
    hyphenPairAt p (c :: t) (i + 1) = hyphenPairAt (isSpaceChar c) t i := by
  cases i with
  | zero =>
    simp [hyphenPairAt, List.getElem?_cons_succ, List.getElem?_cons_zero]
  | succ j =>
    simp [hyphenPairAt, List.getElem?_cons_succ]

theorem removedIdx_shift (p : Bool) (c : Char) (t : List Char)
    (h0 : hyphenPairAt p (c :: t) 0 = false) (i : Nat) :
    removedIdx p (c :: t) (i + 1) = removedIdx (isSpaceChar c) t i := by
  cases i with
  | zero => simp [removedIdx, hyphenPairAt_shift, h0]
  | succ j => simp [removedIdx, hyphenPairAt_shift]

theorem removeHyphenPairsC_cons (p : Bool) (c : Char) (t : List Char)
    (h0 : hyphenPairAt p (c :: t) 0 = false) :
    removeHyphenPairsC p (c :: t) = c :: removeHyphenPairsC (isSpaceChar c) t := by
  unfold removeHyphenPairsC
  rw [List.length_cons, List.range_succ_eq_map, List.filter_cons]
  have hq0 : (!removedIdx p (c :: t) 0) = true := by
    simp [removedIdx, h0]
  rw [hq0]
  simp only [if_true]
  rw [List.filter_map, List.filterMap_cons]
  simp only [List.getElem?_cons_zero]
  rw [List.filterMap_map]
  have hpred : ((fun i => !removedIdx p (c :: t) i) ∘ Nat.succ) =
      fun i => !removedIdx (isSpaceChar c) t i := by
    funext i
    simp only [Function.comp_apply]
    rw [removedIdx_shift p c t h0 i]
  have hget : ((fun i => (c :: t)[i]?) ∘ Nat.succ) = fun i => t[i]? := by
    funext i
    simp [List.getElem?_cons_succ]
  rw [hpred, hget]

theorem removedIdx_pair_shift (t : List Char) (i : Nat) :
    removedIdx false ('-' :: ' ' :: t) (i + 2) = removedIdx true t i := by
  have hart1 : hyphenPairAt false ('-' :: ' ' :: t) 1 = false := by
    rw [hyphenPairAt_shift]
    simp [hyphenPairAt, List.getElem?_cons_zero]
  cases i with
  | zero =>
    simp only [removedIdx]
    rw [hyphenPairAt_shift, hyphenPairAt_shift, hart1]
    simp [isSpaceChar]
  | succ j =>
    simp only [removedIdx]
    rw [hyphenPairAt_shift, hyphenPairAt_shift, hyphenPairAt_shift, hyphenPairAt_shift]
    simp [isSpaceChar]

theorem removeHyphenPairsC_pair (t : List Char) :
    removeHyphenPairsC false ('-' :: ' ' :: t) = removeHyphenPairsC true t := by
  unfold removeHyphenPairsC
  rw [List.length_cons, List.length_cons, List.range_succ_eq_map, List.range_succ_eq_map]
  rw [List.map_cons, List.filter_cons, List.filter_cons]
  have h0 : (!removedIdx false ('-' :: ' ' :: t) 0) = false := by
    simp [removedIdx, hyphenPairAt]
  have h1 : (!removedIdx false ('-' :: ' ' :: t) 1) = false := by
    simp only [removedIdx]
    have : hyphenPairAt false ('-' :: ' ' :: t) 0 = true := by
      simp [hyphenPairAt]
    simp [this]
  rw [h0, h1]
  simp only [if_false, Bool.false_eq_true]
  rw [List.map_map, List.filter_map, List.filterMap_map]
  have hpred : ((fun i => !removedIdx false ('-' :: ' ' :: t) i) ∘ (Nat.succ ∘ Nat.succ)) =
      fun i => !removedIdx true t i := by
    funext i
    simp only [Function.comp_apply]
    rw [show i.succ.succ = i + 2 from rfl, removedIdx_pair_shift]
  have hget : ((fun i => ('-' :: ' ' :: t)[i]?) ∘ (Nat.succ ∘ Nat.succ)) =
      fun i => t[i]? := by
    funext i
    simp [List.getElem?_cons_succ]
  rw [hpred, hget]

/-- The scanning pass of `re.sub(r"(?<!\s)(- )", "", s)` removes exactly
the indices of qualifying hyphen-space occurrences. -/
theorem dehyph_eq_spec : ∀ (s : List Char) (p : Bool), dehyph p s = removeHyphenPairsC p s
  | [], p => by simp [dehyph, removeHyphenPairsC]
  | c :: rest, p => by
    by_cases h : c = '-' ∧ rest.head? = some ' '
    · obtain ⟨rfl, hh⟩ := h
      rcases rest with _ | ⟨c2, t⟩
      · cases hh
      · have hc2 : c2 = ' ' := by simpa using hh
        subst hc2
        cases p with
        | false =>
          rw [dehyph_pair_false, dehyph_eq_spec t true, removeHyphenPairsC_pair]
        | true =>
          rw [dehyph_pair_true, dehyph_eq_spec (' ' :: t) false]
          rw [removeHyphenPairsC_cons true '-' (' ' :: t) (by simp [hyphenPairAt])]
          rfl
    · rw [dehyph_other p c rest h, dehyph_eq_spec rest (isSpaceChar c)]
      have h0 : hyphenPairAt p (c :: rest) 0 = false := by
        simp only [hyphenPairAt, List.getElem?_cons_zero]
        rcases rest with _ | ⟨r, rs⟩
        · simp
        · by_cases hc : c = '-'
          · subst hc
            have hr : r ≠ ' ' := fun hr => h ⟨rfl, by simp [hr]⟩
            simp [List.getElem?_cons_zero, hr]
          · simp [hc]
      rw [removeHyphenPairsC_cons p c rest h0]
termination_by s _ => s.length
decreasing_by
  all_goals
    simp only [List.length_cons]
    omega

/-- Claim C5: after sentence splitting, each occurrence of a hyphen
immediately followed by a space, where the hyphen is not preceded by
whitespace, has the hyphen-space pair removed from the already-split
sentences; in particular `"Diese Fer- tigkeit ist wichtig."` segments to
the single sentence `"Diese Fertigkeit ist wichtig."`. -/
theorem dehyphenation_removes_artifacts :
    (∀ s : List Char, dehyph false s = removeHyphenPairs s)
    ∧ (∀ text : String,
        PdfExtract.split_sentences text =
          (pySplit PdfExtract.splitPred text.data).map fun chunk =>
            String.mk (pyStrip (removeHyphenPairs (pyStrip chunk))))
    ∧ PdfExtract.split_sentences "Diese Fer- tigkeit ist wichtig." =
        ["Diese Fertigkeit ist wichtig."] := by
  have hfun : dehyph false = removeHyphenPairs :=
    funext fun s => dehyph_eq_spec s false
  refine ⟨fun s => dehyph_eq_spec s false, ?_, by decide⟩
  intro text
  simp [PdfExtract.split_sentences, List.map_map, Function.comp_def, hfun]

theorem terminatorBehind_iff (pr : List Char) :
    terminatorBehind pr = true ↔ TerminatorBefore pr := by
  unfold terminatorBehind TerminatorBefore
  cases h : pr.get? 0 with
  | none => simp
  | some t => simp [h, or_assoc]

theorem wordDotWordBehind_iff (pr : List Char) :
    wordDotWordBehind pr = true ↔ WordDotWordCtx pr := by
  unfold wordDotWordBehind WordDotWordCtx
  cases h3 : pr.get? 3 <;> cases h2 : pr.get? 2 <;> cases h1 : pr.get? 1 <;>
    cases h0 : pr.get? 0 <;> simp [h3, h2, h1, h0, and_assoc]

theorem abbrevBehind_iff (pr : List Char) :
    abbrevBehind pr = true ↔ AbbrevCtx pr := by
  unfold abbrevBehind AbbrevCtx
  simp [List.reverse_eq_iff, or_assoc]

theorem titleAbbrevBehind_iff (pr : List Char) :
    titleAbbrevBehind pr = true ↔ TitleAbbrevCtx pr := by
  unfold titleAbbrevBehind TitleAbbrevCtx
  cases h2 : pr.get? 2 <;> cases h1 : pr.get? 1 <;> cases h0 : pr.get? 0 <;>
    simp [h2, h1, h0, and_assoc]

theorem digitDotBehind_iff (pr : List Char) :
    digitDotBehind pr = true ↔ DigitDotCtx pr := by
  unfold digitDotBehind DigitDotCtx
  cases h1 : pr.get? 1 <;> cases h0 : pr.get? 0 <;> simp [h1, h0, and_assoc]

theorem wordDotWordBehind_eq_false_iff (pr : List Char) :
    wordDotWordBehind pr = false ↔ ¬WordDotWordCtx pr := by
  rw [← wordDotWordBehind_iff]
  simp

theorem abbrevBehind_eq_false_iff (pr : List Char) :
    abbrevBehind pr = false ↔ ¬AbbrevCtx pr := by
  rw [← abbrevBehind_iff]
  simp

theorem titleAbbrevBehind_eq_false_iff (pr : List Char) :
    titleAbbrevBehind pr = false ↔ ¬TitleAbbrevCtx pr := by
  rw [← titleAbbrevBehind_iff]
  simp

theorem digitDotBehind_eq_false_iff (pr : List Char) :
    digitDotBehind pr = false ↔ ¬DigitDotCtx pr := by
  rw [← digitDotBehind_iff]
  simp

/-- Claim C4 (amended): the newer revision splits at `'.'`, `'!'` or `'?'`
followed by whitespace, except that no split occurs when the terminator is
preceded by a single uppercase letter, a lowercase letter and a period; by
a digit and a period; by one of the fixed abbreviations `etc.`, `bzw.`,
`usw.`, `uvm.`; or when the four characters before the whitespace are a
word character, a period, a word character and any non-newline character
(the regex `\w\.\w.`, whose last position is the terminator itself — not
only a literal second dot).  The claim's two examples hold. -/
theorem sentence_split_conditions :
    (∀ (pr : List Char) (c : Char),
        PdfExtract.splitPred pr c = true ↔
          (isSpaceChar c = true ∧ TerminatorBefore pr ∧ ¬WordDotWordCtx pr ∧
            ¬AbbrevCtx pr ∧ ¬TitleAbbrevCtx pr ∧ ¬DigitDotCtx pr))
    ∧ PdfExtract.split_sentences "Das ist z.B. gut. Und das auch." =
        ["Das ist z.B. gut.", "Und das auch."]
    ∧ PdfExtract.split_sentences "Siehe Kapitel 3. Das ist wichtig." =
        ["Siehe Kapitel 3. Das ist wichtig."] := by
  refine ⟨?_, by decide, by decide⟩
  intro pr c
  unfold PdfExtract.splitPred
  simp only [Bool.and_eq_true, Bool.not_eq_true']
  rw [terminatorBehind_iff, wordDotWordBehind_eq_false_iff, abbrevBehind_eq_false_iff,
    titleAbbrevBehind_eq_false_iff, digitDotBehind_eq_false_iff]
  tauto

/-- Counterexample to claim C4 as stated: per the claim's condition list,
`"a.b? C"` (letter, dot, letter, question mark) is not protected by the
letter-dot-letter-dot clause, so the claim demands a split after `"b?"`;
the code's lookbehind `(?<!\w\.\w.)` matches `"a.b?"` (its fourth
character is the regex `.`), so no split happens. -/
theorem sentence_split_counterexample :
    PdfExtract.split_sentences "a.b? C" = ["a.b? C"] ∧
      PdfExtract.split_sentences "a.b? C" ≠ ["a.b?", "C"] :=
  ⟨by decide, by decide⟩

/-- Claim C8 (amended): segmentation is idempotent on normalized inputs:
whenever joining the sentences of the first segmentation with a single
space reproduces the input text, segmenting that joined output again
yields the same sequence of sentences.  (Unrestricted idempotence fails:
see the counterexample, where dehyphenation fabricates an abbreviation
context that suppresses a split on the second pass.) -/
theorem segmentation_idempotent_on_normalized (text : String)
    (h : String.intercalate " " (PdfExtract.split_sentences text) = text) :
    PdfExtract.split_sentences
        (String.intercalate " " (PdfExtract.split_sentences text)) =
      PdfExtract.split_sentences text := by
  rw [h]

/-- Witness for claim C8 (amended) at a concrete normalized input. -/
theorem segmentation_idempotent_on_normalized_witness :
    PdfExtract.split_sentences
        (String.intercalate " " (PdfExtract.split_sentences "Hallo. Welt.")) =
      PdfExtract.split_sentences "Hallo. Welt." :=
  segmentation_idempotent_on_normalized "Hallo. Welt." (by decide)

/-- Counterexample to claim C8 as stated: segmenting `"z.- B. C"` yields
`["z.B.", "C"]`; joining with a single space gives `"z.B. C"`, whose
dehyphenation-created `"z.B."` now matches the `\w\.\w.` lookbehind, so
re-segmentation yields the single sentence `["z.B. C"]` — a different
sequence (even the number of sentences differs). -/
theorem segmentation_not_idempotent :
    PdfExtract.split_sentences "z.- B. C" = ["z.B.", "C"] ∧
      String.intercalate " " (PdfExtract.split_sentences "z.- B. C") = "z.B. C" ∧
      PdfExtract.split_sentences "z.B. C" = ["z.B. C"] ∧
      PdfExtract.split_sentences
          (String.intercalate " " (PdfExtract.split_sentences "z.- B. C")) ≠
        PdfExtract.split_sentences "z.- B. C" :=
  ⟨by decide, by decide, by decide, by decide⟩

/-- Two split predicates that agree along a text produce the same chunks:
congruence for the `re.split` scan.  The hypothesis quantifies over every
decomposition of the remaining input; `pr` is the already-consumed
reversed prefix. -/
theorem splitAux_congr (p q : List Char → Char → Bool) :
    ∀ (l pr acc : List Char),
      (∀ (pre suf : List Char) (c : Char), l = pre ++ c :: suf →
        p (pre.reverse ++ pr) c = q (pre.reverse ++ pr) c) →
      splitAux p pr acc l = splitAux q pr acc l := by
  intro l
  induction l with
  | nil => intro pr acc _; rfl
  | cons c rest ih =>
    intro pr acc h
    have h0 : p pr c = q pr c := by simpa using h [] rest c rfl
    have hrest : ∀ (pre suf : List Char) (c' : Char), rest = pre ++ c' :: suf →
        p (pre.reverse ++ (c :: pr)) c' = q (pre.reverse ++ (c :: pr)) c' := by
      intro pre suf c' hdec
      have := h (c :: pre) suf c' (by rw [hdec]; rfl)
      simpa [List.append_assoc] using this
    simp only [splitAux, h0]
    by_cases hq : q pr c = true
    · simp only [hq, if_true]
      rw [ih (c :: pr) [] hrest]
    · have hqf : q pr c = false := by simpa using hq
      simp only [hqf, Bool.false_eq_true, if_false]
      rw [ih (c :: pr) (c :: acc) hrest]

/-- Claim C10 (amended): the two revisions of `split_sentences` do not
compute the same function; they agree on every input on which (a) the
newer revision's additional `etc./bzw./usw./uvm.` lookbehind never changes
a split decision, and (b) every sentence produced by the older revision is
already free of leading and trailing whitespace (the newer revision
additionally strips each sentence after dehyphenation). -/
theorem split_sentences_revisions_agree (text : String)
    (h1 : ∀ n, n < text.data.length →
      Extract.splitPred ((text.data.take n).reverse) (text.data.getD n ' ') =
        PdfExtract.splitPred ((text.data.take n).reverse) (text.data.getD n ' '))
    (h2 : ∀ s ∈ Extract.split_sentences text, pyStripStr s = s) :
    Extract.split_sentences text = PdfExtract.split_sentences text := by
  have hsplit : pySplit Extract.splitPred text.data =
      pySplit PdfExtract.splitPred text.data := by
    apply splitAux_congr
    intro pre suf c hdecomp
    have hn : pre.length < text.data.length := by
      rw [hdecomp]
      simp only [List.length_append, List.length_cons]
      omega
    have htake : text.data.take pre.length = pre := by
      rw [hdecomp, List.take_left]
    have hget : text.data.getD pre.length ' ' = c := by
      rw [hdecomp]
      rw [List.getD_eq_getElem?_getD, List.getElem?_append_right (Nat.le_refl _)]
      simp
    have := h1 pre.length hn
    rw [htake, hget] at this
    simpa using this
  have hrel : PdfExtract.split_sentences text =
      (Extract.split_sentences text).map pyStripStr := by
    unfold PdfExtract.split_sentences Extract.split_sentences
    rw [← hsplit]
    simp [List.map_map, Function.comp_def, pyStripStr]
  have hmap : (Extract.split_sentences text).map pyStripStr =
      Extract.split_sentences text := by
    conv_rhs => rw [← List.map_id (Extract.split_sentences text)]
    exact List.map_congr_left h2
  rw [hrel, hmap]

/-- Witness for claim C10 (amended) at a concrete input satisfying both
hypotheses. -/
theorem split_sentences_revisions_agree_witness :
    Extract.split_sentences "Ja gut. Alles klar." =
      PdfExtract.split_sentences "Ja gut. Alles klar." :=
  split_sentences_revisions_agree "Ja gut. Alles klar." (by decide) (by decide)

/-- Counterexample to claim C10 as stated: the older revision splits after
`"etc."` (its pattern lacks the abbreviation lookbehind) while the newer
one does not; and on `"-  y"` the older revision keeps the leading space
uncovered by its missing final strip. -/
theorem split_sentences_revisions_differ :
    Extract.split_sentences "Siehe etc. Und mehr." = ["Siehe etc.", "Und mehr."] ∧
      PdfExtract.split_sentences "Siehe etc. Und mehr." = ["Siehe etc. Und mehr."] ∧
      Extract.split_sentences "Siehe etc. Und mehr." ≠
        PdfExtract.split_sentences "Siehe etc. Und mehr." ∧
      Extract.split_sentences "-  y" ≠ PdfExtract.split_sentences "-  y" :=
  ⟨by decide, by decide, by decide, by decide⟩

/-- Claim C1 (the code contradicts its own per-field error handling): a
page on which the primary anchor and the title anchors resolve but the
competencies (or requirements) anchors do not is caught per-field, leaving
the key out of the results dictionary — and the subsequent unconditional
`page_results['competencies']` access then raises an uncaught `KeyError`
that aborts the whole extraction.  Likewise a failed title resolution
raises `KeyError('name')` at the unconditional strip.  No record is
emitted and extraction does not continue. -/
theorem secondary_field_failure_is_fatal :
    PdfExtract.extract_competencies
        ⟨[[⟨"Modulnummer", 0, 700, 100, 710⟩, ⟨"Titel", 0, 680, 100, 690⟩,
            ⟨"Leistungspunkte", 0, 660, 100, 670⟩], []]⟩ =
      Except.error (ExtractErr.keyError "competencies")
    ∧ PdfExtract.extract_competencies
        ⟨[[⟨"Modulnummer", 0, 700, 100, 710⟩, ⟨"Titel", 0, 680, 100, 690⟩], []]⟩ =
      Except.error (ExtractErr.keyError "name") :=
  ⟨by decide, by decide⟩

theorem except_bind_ok {ε α β : Type} (a : α) (f : α → Except ε β) :
    (Except.ok a : Except ε α) >>= f = f a := rfl

theorem except_bind_error {ε α β : Type} (e : ε) (f : α → Except ε β) :
    (Except.error e : Except ε α) >>= f = Except.error e := rfl

theorem except_pure {ε α : Type} (a : α) :
    (pure a : Except ε α) = Except.ok a := rfl

/-- A page is skipped (no record, no error) exactly when its primary
selector fails to resolve. -/
theorem extractPage_ok_none_iff (page : List Frag) (i : Nat) :
    PdfExtract.extractPage page i = Except.ok none ↔ primaryResolves page = false := by
  cases hm : PdfExtract.resolveAnchor page ["Modulnummer"] with
  | none =>
    simp [PdfExtract.extractPage, PdfExtract.getSelectorBox, PdfExtract.resolveAnchorE,
      hm, primaryResolves, except_bind_error]
  | some f =>
    cases ht : PdfExtract.resolveAnchor page ["Titel"] with
    | none =>
      simp [PdfExtract.extractPage, PdfExtract.getSelectorBox, PdfExtract.resolveAnchorE,
        hm, ht, primaryResolves, except_bind_ok, except_bind_error]
    | some g =>
      constructor
      · intro h
        exfalso
        simp only [PdfExtract.extractPage, PdfExtract.getSelectorBox,
          PdfExtract.resolveAnchorE, hm, ht, except_bind_ok, except_pure] at h
        split at h
        · exact Except.noConfusion h
        · split at h
          · exact Except.noConfusion h
          · exact Except.noConfusion h
          · injection h with h
            exact Option.noConfusion h
      · intro h
        rw [primaryResolves, hm, ht] at h
        simp at h

/-- A successfully built record carries the 1-based page number of the
page it was built from. -/
theorem extractPage_ok_some_page (page : List Frag) (i : Nat) (r : Rec)
    (h : PdfExtract.extractPage page i = Except.ok (some r)) : r.page = i + 1 := by
  unfold PdfExtract.extractPage at h
  split at h
  · injection h with h
    exact Option.noConfusion h
  · split at h
    · exact Except.noConfusion h
    · split at h
      · exact Except.noConfusion h
      · exact Except.noConfusion h
      · injection h with h
        injection h with h
        rw [← h]

/-- Membership in a successful loop result: a record is in the output
exactly when some processed page index built it. -/
theorem extractLoop_ok_mem (pdf : Pdf) :
    ∀ (is : List Nat) (rs : List Rec), PdfExtract.extractLoop pdf is = Except.ok rs →
      ∀ r : Rec, (r ∈ rs ↔ ∃ i, i ∈ is ∧
        PdfExtract.extractPage (pdf.pages.getD i []) i = Except.ok (some r)) := by
  intro is
  induction is with
  | nil =>
    intro rs h r
    simp only [PdfExtract.extractLoop] at h
    injection h with h
    subst h
    simp
  | cons i is ih =>
    intro rs h r
    cases hep : PdfExtract.extractPage (pdf.pages.getD i []) i with
    | error e =>
      rw [PdfExtract.extractLoop, hep] at h
      exact Except.noConfusion h
    | ok o =>
      rw [PdfExtract.extractLoop, hep] at h
      cases o with
      | none =>
        rw [ih rs h r]
        constructor
        · rintro ⟨j, hj, hjx⟩
          exact ⟨j, List.mem_cons_of_mem _ hj, hjx⟩
        · rintro ⟨j, hj, hjx⟩
          rcases List.mem_cons.mp hj with rfl | hj'
          · rw [hep] at hjx
            injection hjx with hjx
            exact Option.noConfusion hjx
          · exact ⟨j, hj', hjx⟩
      | some r' =>
        cases hloop : PdfExtract.extractLoop pdf is with
        | error e =>
          rw [hloop] at h
          exact Except.noConfusion h
        | ok rs' =>
          rw [hloop] at h
          injection h with h
          subst h
          simp only [List.mem_cons]
          constructor
          · rintro (rfl | hmem)
            · exact ⟨i, Or.inl rfl, hep⟩
            · obtain ⟨j, hj, hjx⟩ := (ih rs' hloop r).mp hmem
              exact ⟨j, Or.inr hj, hjx⟩
          · rintro ⟨j, hj, hjx⟩
            rcases hj with rfl | hj'
            · left
              rw [hep] at hjx
              injection hjx with hjx
              injection hjx with hjx
              exact hjx.symm
            · right
              exact (ih rs' hloop r).mpr ⟨j, hj', hjx⟩

/-- A successful loop run implies every processed page reached a
non-exceptional outcome. -/
theorem extractLoop_ok_pages (pdf : Pdf) :
    ∀ (is : List Nat) (rs : List Rec), PdfExtract.extractLoop pdf is = Except.ok rs →
      ∀ i ∈ is, ∃ o, PdfExtract.extractPage (pdf.pages.getD i []) i = Except.ok o := by
  intro is
  induction is with
  | nil =>
    intro rs _ i hi
    exact absurd hi (List.not_mem_nil i)
  | cons j is ih =>
    intro rs h i hi
    cases hep : PdfExtract.extractPage (pdf.pages.getD j []) j with
    | error e =>
      rw [PdfExtract.extractLoop, hep] at h
      exact Except.noConfusion h
    | ok o =>
      rw [PdfExtract.extractLoop, hep] at h
      rcases List.mem_cons.mp hi with rfl | hi'
      · exact ⟨o, hep⟩
      · cases o with
        | none => exact ih rs h i hi'
        | some r' =>
          cases hloop : PdfExtract.extractLoop pdf is with
          | error e =>
            rw [hloop] at h
            exact Except.noConfusion h
          | ok rs' => exact ih rs' hloop i hi'

/-- Claim C2 (amended): when extraction completes without an exception, a
record exists for 0-based page `i` exactly when `i` is below
`page_count - 1` (the loop `range(page_count - 1)` never examines the last
page) and the page's primary selector resolves — which requires both the
`"Modulnummer"` descriptor and its underlying `"Titel"` descriptor to
match a fragment, not the primary anchor alone. -/
theorem record_iff_primary_and_not_last (pdf : Pdf) (rs : List Rec) (i : Nat)
    (h : PdfExtract.extract_competencies pdf = Except.ok rs) :
    (∃ r ∈ rs, r.page = i + 1) ↔
      (i < pdf.pages.length - 1 ∧ primaryResolves (pdf.pages.getD i []) = true) := by
  unfold PdfExtract.extract_competencies at h
  constructor
  · rintro ⟨r, hr, hpage⟩
    obtain ⟨j, hj, hjext⟩ := (extractLoop_ok_mem pdf _ rs h r).mp hr
    have hpj : r.page = j + 1 := extractPage_ok_some_page _ _ _ hjext
    have hji : j = i := by omega
    subst hji
    refine ⟨List.mem_range.mp hj, ?_⟩
    by_contra hcontra
    have hfalse : primaryResolves (pdf.pages.getD j []) = false := by
      simpa using hcontra
    have hnone : PdfExtract.extractPage (pdf.pages.getD j []) j = Except.ok none :=
      (extractPage_ok_none_iff _ _).mpr hfalse
    rw [hnone] at hjext
    injection hjext with hjext
    exact Option.noConfusion hjext
  · rintro ⟨hlt, hprim⟩
    have hmem : i ∈ List.range (pdf.pages.length - 1) := List.mem_range.mpr hlt
    obtain ⟨o, ho⟩ := extractLoop_ok_pages pdf _ rs h i hmem
    cases o with
    | none =>
      have := (extractPage_ok_none_iff _ _).mp ho
      rw [hprim] at this
      exact Bool.noConfusion this
    | some r =>
      exact ⟨r, (extractLoop_ok_mem pdf _ rs h r).mpr ⟨i, hmem, ho⟩,
        extractPage_ok_some_page _ _ _ ho⟩

/-- Witness for claim C2 (amended): on the demonstration document the
hypothesis holds and page 0 both yields a record and satisfies the
right-hand side. -/
theorem record_iff_primary_and_not_last_witness :
    (∃ r ∈ demoRecs, r.page = 0 + 1) ↔
      (0 < demoPdf.pages.length - 1 ∧ primaryResolves (demoPdf.pages.getD 0 []) = true) :=
  record_iff_primary_and_not_last demoPdf demoRecs 0 (by rfl)

/-- Counterexample to claim C2 as stated: (a) a single-page document whose
only page carries every anchor, including the primary one, yields no
record at all — `range(page_count - 1)` is empty, so the last page is
never examined; (b) a page carrying `"Modulnummer"` but no `"Titel"` is
skipped even though a primary-anchor candidate matches a fragment. -/
theorem record_iff_counterexample :
    PdfExtract.extract_competencies
        ⟨[[⟨"Modulnummer", 0, 700, 100, 710⟩, ⟨"Titel", 0, 680, 100, 690⟩,
            ⟨"Leistungspunkte", 0, 660, 100, 670⟩,
            ⟨"Lernziele / Kompetenzen", 0, 640, 100, 650⟩,
            ⟨"Voraussetzungen", 0, 620, 100, 630⟩,
            ⟨"Niveaustufe", 0, 600, 100, 610⟩]]⟩ = Except.ok []
    ∧ (PdfExtract.resolveAnchor
        [⟨"Modulnummer", 0, 700, 100, 710⟩, ⟨"Titel", 0, 680, 100, 690⟩,
          ⟨"Leistungspunkte", 0, 660, 100, 670⟩,
          ⟨"Lernziele / Kompetenzen", 0, 640, 100, 650⟩,
          ⟨"Voraussetzungen", 0, 620, 100, 630⟩,
          ⟨"Niveaustufe", 0, 600, 100, 610⟩] ["Modulnummer"]).isSome = true
    ∧ PdfExtract.extract_competencies
        ⟨[[⟨"Modulnummer", 0, 700, 100, 710⟩], []]⟩ = Except.ok []
    ∧ (PdfExtract.resolveAnchor [⟨"Modulnummer", 0, 700, 100, 710⟩]
        ["Modulnummer"]).isSome = true :=
  ⟨by decide, by decide, by decide, by decide⟩
